import Mathlib

/-!
Verification of the `State` controller of `packages/client/src/controllers/state.ts`
(a persistent keyed sequence store with restore gating).

The embedding models:
 - a `Sequence` record as an association list of string fields (`Rec`) — the store is
   generic over the record type and only ever reads the `topic` field and spreads
   records shallowly, both of which the association-list model captures;
 - the JS `Map<string, Sequence>` as an insertion-ordered association list whose key
   type is `Option String` (a JS `Map` accepts `undefined` as a key, which is what
   `restore` uses when a persisted record lacks a `topic` field);
 - each public method as a function from the store state to a result, a new state and
   a trace of observable actions (events emitted and storage writes issued), with the
   single-threaded scheduling of the source: an `emit` runs the persistence listener
   registered in `registerEventListeners`, which calls `persist` (a storage write of
   the full current value list followed by the `sync` event);
 - the restore gate by the `cached` field: `isEnabled` returns immediately iff
   `cached` is empty, otherwise the caller blocks until the `enabled` event
   (`Res.blocked` in the model, since nothing else will emit it).
-/

namespace WCState

/-- A `Reason` as passed to `delete` (code and message). -/
structure Reason where
  code : Int
  message : String
deriving DecidableEq, Repr

/-- A sequence record: an association list from field names to field values.
JS objects hold each key at most once; lookups take the first occurrence. -/
abbrev Rec := List (String × String)

/-- Field lookup on a record. -/
def recGet (r : Rec) (k : String) : Option String :=
  (r.find? (fun kv => kv.1 == k)).map (·.2)

/-- The `topic` field of a record, as read by `restore` via `(sequence as any).topic`;
`none` models a record without that field (JS `undefined`). -/
def recTopic (r : Rec) : Option String :=
  recGet r "topic"

/-- JS object spread `{...s, ...p}`: the keys of `s` in order, each taking `p`'s value
when `p` has the key, followed by the keys of `p` not in `s`, in order. -/
def mergeRec (s p : Rec) : Rec :=
  s.map (fun kv => (kv.1, ((p.find? (fun kv2 => kv2.1 == kv.1)).map (·.2)).getD kv.2))
    ++ p.filter (fun kv => ! s.any (fun kv2 => kv2.1 == kv.1))

/-- The in-memory `Map<string, Sequence>`: insertion-ordered association list.
The key is `Option String` because `restore` keys records by their `topic` field,
which may be absent (`undefined`); the public methods always use `some topic`. -/
abbrev Smap := List (Option String × Rec)

/-- Model of `Map.prototype.has`. -/
def mapHas (m : Smap) (k : Option String) : Bool :=
  m.any (fun kv => kv.1 == k)

/-- Model of `Map.prototype.get` (absent ↦ `none`). -/
def mapGet (m : Smap) (k : Option String) : Option Rec :=
  (m.find? (fun kv => kv.1 == k)).map (·.2)

/-- Model of `Map.prototype.set`: overwrite in place when the key exists, else append. -/
def mapSet (m : Smap) (k : Option String) (v : Rec) : Smap :=
  if mapHas m k then m.map (fun kv => if kv.1 == k then (k, v) else kv)
  else m ++ [(k, v)]

/-- Model of `Map.prototype.delete`. -/
def mapDelete (m : Smap) (k : Option String) : Smap :=
  m.filter (fun kv => ! (kv.1 == k))

/-- Model of `Array.from(map.values())`: the values in insertion order (the `values` getter). -/
def mapValues (m : Smap) : List Rec :=
  m.map (·.2)

/-- The fields of the owning client used by the store: `protocol`, `version`,
`context` (key derivation only). -/
structure Client where
  protocol : String
  version : String
  context : String
deriving DecidableEq, Repr

/-- The mutable state of one `State` instance: the owning client's key-derivation
fields, the full context string of the child logger (`getLoggerContext(this.logger)`),
the `sequences` map, and the `cached` array that gates operations during restore. -/
structure St where
  client : Client
  loggerContext : String
  sequences : Smap
  cached : List Rec
deriving DecidableEq, Repr

/-- Observable actions: the five lifecycle events of `STATE_EVENTS` plus the storage
writes issued by `persist` (`client.storage.setItem(key, values)`). -/
inductive Act where
  | created (topic : String) (sequence : Rec)
  | updated (topic : String) (sequence : Rec) (update : Rec)
  | deleted (topic : String) (sequence : Rec) (reason : Reason)
  | sync
  | enabled
  | storageWrite (key : String) (value : List Rec)
deriving DecidableEq, Repr

/-- Thrown errors: `ERROR.NO_MATCHING_TOPIC` (with the state context string and the
topic), `ERROR.RESTORE_WILL_OVERRIDE` (with the state context string), a storage
adapter rejection, and a TypeError from reading `.length` of a malformed snapshot. -/
inductive Err where
  | noMatchingTopic (context : String) (topic : String)
  | restoreWillOverride (context : String)
  | storageFailure
  | malformedSnapshot
deriving DecidableEq, Repr

/-- Outcome of a public method call: normal return, a thrown error, or blocked on the
restore gate (`isEnabled` suspended on the `enabled` event). -/
inductive Res (α : Type) where
  | ok (a : α)
  | thrown (e : Err)
  | blocked
deriving DecidableEq, Repr

/-- Result of running one public method: its outcome, the state afterwards, and the
trace of events emitted and storage writes issued, in order. -/
structure OpResult (α : Type) where
  res : Res α
  st : St
  trace : List Act
deriving DecidableEq, Repr

/-- Splitting on a slash at the character level: the substrings between the occurrences
of `/`, keeping empty segments (the semantics of the JS single-character split). -/
def splitSlashAux : List Char → List Char → List String
  | [], acc => [String.mk acc.reverse]
  | c :: rest, acc =>
    if c = '/' then String.mk acc.reverse :: splitSlashAux rest []
    else splitSlashAux rest (c :: acc)

/-- Model of `s.split("/")`. -/
def splitSlash (s : String) : List String :=
  splitSlashAux s.data []

/-- Model of `getNestedContext(length)`: split the logger context on `/` and take the last
`length` segments (`slice(n - length, n)`; the truncated subtraction also matches the
JS negative-start slice when there are fewer than `length` segments). -/
def getNestedContext (st : St) (length : Nat) : List String :=
  let nestedContext := splitSlash st.loggerContext
  nestedContext.drop (nestedContext.length - length)

/-- Model of `getStateContext()`: the last two logger-context segments joined with a space. -/
def getStateContext (st : St) : String :=
  String.intercalate " " (getNestedContext st 2)

/-- Model of `getStorageKey()`: `` `${protocol}@${version}:${context}//${nested.join(":")}` ``. -/
def getStorageKey (st : St) : String :=
  st.client.protocol ++ "@" ++ st.client.version ++ ":" ++ st.client.context
    ++ "//" ++ String.intercalate ":" (getNestedContext st 2)

/-- Model of `getState(topic)`: look the topic up; throw `NO_MATCHING_TOPIC` when absent.
(The source tests `if (!sequence)`; a present value is a JS object, always truthy,
so the test is exactly absence.) -/
def getState (st : St) (topic : String) : Except Err Rec :=
  match mapGet st.sequences (some topic) with
  | some sequence => .ok sequence
  | none => .error (.noMatchingTopic (getStateContext st) topic)

/-- The actions of one `persist()` call: write the full current value list under the
derived storage key, then emit `sync`. -/
def persistActs (st : St) : List Act :=
  [.storageWrite (getStorageKey st) (mapValues st.sequences), .sync]

/-- Model of `update(topic, update)`: gate, `getState` (throws when absent), shallow-merge the
existing record with the patch, store it, emit `updated` (whose listener persists). -/
def updateOp (st : St) (topic : String) (update : Rec) : OpResult Unit :=
  if st.cached.isEmpty then
    match getState st topic with
    | .error e => ⟨.thrown e, st, []⟩
    | .ok s =>
      let sequence := mergeRec s update
      let st1 := { st with sequences := mapSet st.sequences (some topic) sequence }
      ⟨.ok (), st1, .updated topic sequence update :: persistActs st1⟩
  else ⟨.blocked, st, []⟩

/-- Model of `set(topic, sequence)`: gate; delegate to `update` when the topic is present;
otherwise emit `created` (whose listener persists). The source's else-branch never
calls `this.sequences.set`, so the map is not changed on this path. -/
def setOp (st : St) (topic : String) (sequence : Rec) : OpResult Unit :=
  if st.cached.isEmpty then
    if mapHas st.sequences (some topic) then updateOp st topic sequence
    else ⟨.ok (), st, .created topic sequence :: persistActs st⟩
  else ⟨.blocked, st, []⟩

/-- Model of `get(topic)`: gate, then `getState` (throws when absent). Read-only. -/
def getOp (st : St) (topic : String) : OpResult Rec :=
  if st.cached.isEmpty then
    match getState st topic with
    | .ok s => ⟨.ok s, st, []⟩
    | .error e => ⟨.thrown e, st, []⟩
  else ⟨.blocked, st, []⟩

/-- Model of `delete(topic, reason)`: gate; silent return when the topic is absent; otherwise
read the record, remove it, emit `deleted` (whose listener persists). -/
def deleteOp (st : St) (topic : String) (reason : Reason) : OpResult Unit :=
  if st.cached.isEmpty then
    if mapHas st.sequences (some topic) then
      match getState st topic with
      | .error e => ⟨.thrown e, st, []⟩
      | .ok sequence =>
        let st1 := { st with sequences := mapDelete st.sequences (some topic) }
        ⟨.ok (), st1, .deleted topic sequence reason :: persistActs st1⟩
    else ⟨.ok (), st, []⟩
  else ⟨.blocked, st, []⟩

/-- What `client.storage.getItem(key)` can yield: a rejection, a malformed value on
which `.length` throws, `undefined`, or an array of records. -/
inductive StorageGetResult where
  | failure
  | malformed
  | absent
  | value (rs : List Rec)
deriving DecidableEq, Repr

/-- The persistence adapter's read side: what `getItem` yields at each key. -/
abbrev Storage := String → StorageGetResult

/-- The body of `restore()`'s `try` block: read the snapshot at the derived key;
return when `undefined` or empty; throw `RESTORE_WILL_OVERRIDE` when the map is
already non-empty; otherwise cache the snapshot, insert every record keyed by its
`topic` field, and `enable()` (clear `cached`, emit `enabled`). -/
def restoreBody (st : St) (storage : Storage) : Except Err (St × List Act) :=
  match storage (getStorageKey st) with
  | .failure => .error .storageFailure
  | .malformed => .error .malformedSnapshot
  | .absent => .ok (st, [])
  | .value rs =>
    if rs.isEmpty then .ok (st, [])
    else if st.sequences.length != 0 then
      .error (.restoreWillOverride (getStateContext st))
    else
      let st1 := { st with cached := rs }
      let st2 := { st1 with
        sequences := rs.foldl (fun m r => mapSet m (recTopic r) r) st1.sequences }
      (.ok ({ st2 with cached := [] }, [.enabled]))

/-- Model of `restore()`: the `try` body with its `catch`, which logs and swallows every
error. Every throw in the body happens before any mutation, so the caught path
returns the state unchanged with no actions. -/
def restoreOp (st : St) (storage : Storage) : St × List Act :=
  match restoreBody st storage with
  | .ok r => r
  | .error _ => (st, [])

/-- Model of `init()`: a trace log then `await this.restore()`. -/
def initOp (st : St) (storage : Storage) : St × List Act :=
  restoreOp st storage

/-! ### Helper lemmas about the map and the record-merge models -/

theorem find?_eq_of_mem_eq {α : Type} (l : List α) (p q : α → Bool)
    (h : ∀ a ∈ l, p a = q a) : l.find? p = l.find? q := by
  induction l with
  | nil => rfl
  | cons a l ih =>
    have ha := h a (by simp)
    by_cases hp : p a
    · rw [List.find?_cons_of_pos _ hp, List.find?_cons_of_pos _ (ha ▸ hp)]
    · rw [List.find?_cons_of_neg _ hp, List.find?_cons_of_neg _ (ha ▸ hp),
        ih (fun a ha => h a (by simp [ha]))]

theorem find?_eq_none_of_any_eq_false {m : Smap} {k : Option String}
    (h : (m.any fun kv => kv.1 == k) = false) :
    m.find? (fun kv => kv.1 == k) = none := by
  rw [List.find?_eq_none]
  intro kv hkv
  simpa using List.any_eq_false.mp h kv hkv

theorem mapGet_eq_none_of_not_has (m : Smap) (k : Option String)
    (h : mapHas m k = false) : mapGet m k = none := by
  unfold mapHas at h
  unfold mapGet
  rw [find?_eq_none_of_any_eq_false h]
  rfl

theorem mapGet_isSome_of_has (m : Smap) (k : Option String)
    (h : mapHas m k = true) : (mapGet m k).isSome := by
  unfold mapHas at h
  obtain ⟨kv, hmem, hbeq⟩ := List.any_eq_true.mp h
  unfold mapGet
  cases hf : m.find? (fun kv => kv.1 == k) with
  | none => exact absurd hbeq (by simpa using List.find?_eq_none.mp hf kv hmem)
  | some kv0 => simp

theorem mapGet_mapSet_self (m : Smap) (k : Option String) (v : Rec) :
    mapGet (mapSet m k v) k = some v := by
  unfold mapSet
  by_cases h : mapHas m k
  · simp only [h, if_true]
    unfold mapGet
    rw [List.find?_map]
    have hpf : ((fun kv : Option String × Rec => kv.1 == k) ∘
        (fun kv : Option String × Rec => if kv.1 == k then (k, v) else kv))
        = (fun kv : Option String × Rec => kv.1 == k) := by
      funext kv
      by_cases hk : kv.1 = k <;> simp [Function.comp, hk]
    rw [hpf]
    unfold mapHas at h
    obtain ⟨kv, hmem, hbeq⟩ := List.any_eq_true.mp h
    cases hf : m.find? (fun kv : Option String × Rec => kv.1 == k) with
    | none => exact absurd hbeq (by simpa using List.find?_eq_none.mp hf kv hmem)
    | some kv0 =>
      have hk0 := List.find?_some hf
      have hk0' : kv0.1 = k := by simpa using hk0
      simp [hk0']
  · simp only [h, if_false, Bool.false_eq_true]
    unfold mapGet
    rw [List.find?_append]
    have h' : (m.any fun kv => kv.1 == k) = false := by
      simp only [Bool.not_eq_true] at h
      simpa [mapHas] using h
    rw [find?_eq_none_of_any_eq_false h']
    simp [List.find?]

theorem mapGet_mapSet_ne (m : Smap) (k k' : Option String) (v : Rec)
    (h : k' ≠ k) : mapGet (mapSet m k v) k' = mapGet m k' := by
  unfold mapSet
  by_cases hhas : mapHas m k
  · simp only [hhas, if_true]
    unfold mapGet
    rw [List.find?_map]
    have hpf : ((fun kv : Option String × Rec => kv.1 == k') ∘
        (fun kv : Option String × Rec => if kv.1 == k then (k, v) else kv))
        = (fun kv : Option String × Rec => kv.1 == k') := by
      funext kv
      by_cases hk : kv.1 = k <;> simp [Function.comp, hk]
    rw [hpf]
    cases hfind : m.find? (fun kv : Option String × Rec => kv.1 == k') with
    | none => simp
    | some kv0 =>
      have hk0 := List.find?_some hfind
      have hk0' : kv0.1 = k' := by simpa using hk0
      simp [hk0', h]
  · simp only [hhas, if_false, Bool.false_eq_true]
    unfold mapGet
    rw [List.find?_append]
    have hkk : (k == k') = false := beq_eq_false_iff_ne.mpr (Ne.symm h)
    have hsingle : List.find? (fun kv : Option String × Rec => kv.1 == k') [(k, v)]
        = none := by
      simp [List.find?, hkk]
    simp [hsingle]

theorem mapGet_mapDelete_ne (m : Smap) (k k' : Option String)
    (h : k' ≠ k) : mapGet (mapDelete m k) k' = mapGet m k' := by
  unfold mapDelete mapGet
  rw [List.find?_filter]
  congr 1
  apply find?_eq_of_mem_eq
  intro kv _
  by_cases hk : kv.1 = k'
  · simp [hk, h]
  · simp [hk]

theorem mapSet_append_of_not_has (m : Smap) (k : Option String) (v : Rec)
    (h : mapHas m k = false) : mapSet m k v = m ++ [(k, v)] := by
  unfold mapSet
  simp [h]

theorem foldl_mapSet_of_nodup (rs : List Rec) :
    ∀ (m : Smap), (∀ r ∈ rs, mapHas m (recTopic r) = false) →
    (rs.map recTopic).Nodup →
    rs.foldl (fun m r => mapSet m (recTopic r) r) m
      = m ++ rs.map (fun r => (recTopic r, r)) := by
  induction rs with
  | nil => simp
  | cons r rs ih =>
    intro m hfresh hnodup
    rw [List.map_cons] at hnodup
    have hnd1 : recTopic r ∉ rs.map recTopic := (List.nodup_cons.mp hnodup).1
    have hnd2 : (rs.map recTopic).Nodup := (List.nodup_cons.mp hnodup).2
    simp only [List.foldl_cons]
    rw [mapSet_append_of_not_has m _ r (hfresh r (by simp))]
    rw [ih (m ++ [(recTopic r, r)]) ?hf hnd2]
    · simp
    case hf =>
      intro r' hr'
      have h1 : mapHas m (recTopic r') = false := hfresh r' (by simp [hr'])
      have h2 : recTopic r ≠ recTopic r' := by
        intro heq
        exact hnd1 (heq ▸ List.mem_map_of_mem recTopic hr')
      unfold mapHas at *
      simp only [List.any_append, List.any_cons, List.any_nil, Bool.or_eq_false_iff]
      exact ⟨h1, by simpa using h2⟩

theorem mapHas_eq_true_of_mapGet (m : Smap) (k : Option String) (v : Rec)
    (h : mapGet m k = some v) : mapHas m k = true := by
  unfold mapGet at h
  cases hf : m.find? (fun kv => kv.1 == k) with
  | none => rw [hf] at h; simp at h
  | some kv0 =>
    have hmem := List.mem_of_find?_eq_some hf
    have hp := List.find?_some hf
    unfold mapHas
    exact List.any_eq_true.mpr ⟨kv0, hmem, hp⟩

theorem recGet_mergeRec (s p : Rec) (k : String) :
    recGet (mergeRec s p) k = (recGet p k).or (recGet s k) := by
  unfold mergeRec recGet
  rw [List.find?_append, List.find?_map, List.find?_filter]
  have hpf : ((fun kv : String × String => kv.1 == k) ∘
      (fun kv : String × String =>
        (kv.1, ((p.find? fun kv2 => kv2.1 == kv.1).map (·.2)).getD kv.2)))
      = (fun kv : String × String => kv.1 == k) := by
    funext kv; rfl
  rw [hpf]
  cases hs : s.find? (fun kv : String × String => kv.1 == k) with
  | some kv0 =>
    have hk0 : kv0.1 = k := by simpa using List.find?_some hs
    have hpk : (p.find? fun kv2 : String × String => kv2.1 == kv0.1)
        = p.find? (fun kv2 : String × String => kv2.1 == k) := by rw [hk0]
    cases hp : p.find? (fun kv2 : String × String => kv2.1 == k) with
    | some kv1 => simp [hpk, hp]
    | none => simp [hpk, hp]
  | none =>
    have hsn : ∀ kv ∈ s, (kv.1 == k) = false := by
      intro kv hkv
      have hne := List.find?_eq_none.mp hs kv hkv
      simpa using hne
    have hq : p.find? (fun a : String × String =>
        (!s.any fun kv2 => kv2.1 == a.1) ∧ a.1 == k)
        = p.find? (fun a : String × String => a.1 == k) := by
      apply find?_eq_of_mem_eq
      intro a _
      by_cases hak : a.1 == k
      · have hak' : a.1 = k := by simpa using hak
        have : s.any (fun kv2 => kv2.1 == a.1) = false := by
          rw [List.any_eq_false]
          intro kv hkv
          simp [hak', hsn kv hkv]
        simp [hak, this]
      · simp [hak]
    rw [hq]
    cases p.find? (fun kv2 : String × String => kv2.1 == k) <;> simp

/-- Every storage write in a trace uses the given key. -/
def writesUseKey (tr : List Act) (key : String) : Bool :=
  tr.all fun a =>
    match a with
    | .storageWrite k _ => k == key
    | _ => true

/-! ### Concrete instances used by the claim witnesses -/

/-- A concrete owning client. -/
def exClient : Client := ⟨"wc", "2", "client"⟩

/-- A concrete record with topic `t1`. -/
def exSeq : Rec := [("topic", "t1"), ("expiry", "100")]

/-- A concrete record with topic `t2`. -/
def exSeq2 : Rec := [("topic", "t2"), ("expiry", "200")]

/-- A concrete patch record. -/
def exPatch : Rec := [("expiry", "300"), ("state", "settled")]

/-- A concrete deletion reason. -/
def exReason : Reason := ⟨0, "done"⟩

/-- A concrete store state: gate clear, map empty. -/
def exSt : St :=
  { client := exClient, loggerContext := "client/state", sequences := [], cached := [] }

/-- A concrete store state holding the record `exSeq` at topic `t1`. -/
def exStT1 : St := { exSt with sequences := [(some "t1", exSeq)] }

/-- A concrete store state holding `exSeq` at `t1` and `exSeq2` at `t2`. -/
def exStT1T2 : St :=
  { exSt with sequences := [(some "t1", exSeq), (some "t2", exSeq2)] }

/-! ### The claims -/

/-- C1: evaluation of the code at the failing input. On an empty, gate-clear store,
`set("t1", S)` returns normally and emits `created` (whose listener persists the
current — still empty — value list), but the source's else-branch never calls
`this.sequences.set(topic, sequence)`, so the map stays empty and the subsequent
`get("t1")` throws `NoMatchingTopic` instead of returning S. The claim (insert into
the map, `get` returns S) describes the clear intent — `update` and `delete` do
mutate the map, and the persisted "created" snapshot here omits the new record —
but the code does not do it. -/
theorem C1_set_then_get_fails_on_code :
    (setOp exSt "t1" exSeq).res = Res.ok () ∧
    (setOp exSt "t1" exSeq).trace.head? = some (Act.created "t1" exSeq) ∧
    (setOp exSt "t1" exSeq).st.sequences = [] ∧
    (getOp (setOp exSt "t1" exSeq).st "t1").res
      = Res.thrown (Err.noMatchingTopic "client state" "t1") :=
  ⟨rfl, rfl, rfl, rfl⟩

/-- C3: when a non-empty snapshot is persisted but the sequences map already holds
at least one record, `init()` returns the state exactly as it was — the persisted
records are not merged in, `cached` is untouched (no gate-pending transition) — and
emits nothing (in particular no `enabled`): the conflict error is thrown inside
`restore` and caught by its `catch`. -/
theorem C3_restore_conflict_aborts (st : St) (storage : Storage) (rs : List Rec)
    (hread : storage (getStorageKey st) = .value rs)
    (hne : rs ≠ [])
    (hnonempty : st.sequences ≠ []) :
    initOp st storage = (st, []) := by
  unfold initOp restoreOp restoreBody
  rw [hread]
  have h1 : rs.isEmpty = false := by simp [List.isEmpty_iff, hne]
  have h2 : st.sequences.length ≠ 0 :=
    fun hlen => hnonempty (List.length_eq_zero.mp hlen)
  simp [h1, h2]

/-- C3 witness: the conflict path evaluated at a concrete snapshot and a concrete
non-empty map. -/
theorem C3_restore_conflict_aborts_witness :
    ((fun _ => StorageGetResult.value [exSeq2]) : Storage) (getStorageKey exStT1)
      = .value [exSeq2] ∧
    ([exSeq2] : List Rec) ≠ [] ∧
    exStT1.sequences ≠ [] ∧
    initOp exStT1 (fun _ => StorageGetResult.value [exSeq2]) = (exStT1, []) :=
  ⟨rfl, by decide, by decide,
    C3_restore_conflict_aborts exStT1 _ [exSeq2] rfl (by decide) (by decide)⟩

/-- C7: any error raised inside `restore`'s `try` block (adapter rejection,
malformed snapshot, restore conflict) is caught and swallowed: `init()` — a total
function in the model, returning a plain state/trace pair rather than an `Except` —
returns the state exactly as it was at the throw point (every throw in the body
happens before any mutation) with no events emitted. -/
theorem C7_init_swallows_restore_errors (st : St) (storage : Storage) (e : Err)
    (herr : restoreBody st storage = Except.error e) :
    initOp st storage = (st, []) := by
  unfold initOp restoreOp
  rw [herr]

/-- C7 witness: an adapter rejection evaluated concretely. -/
theorem C7_init_swallows_restore_errors_witness :
    restoreBody exSt (fun _ => StorageGetResult.failure)
      = Except.error Err.storageFailure ∧
    initOp exSt (fun _ => StorageGetResult.failure) = (exSt, []) :=
  ⟨rfl, C7_init_swallows_restore_errors exSt _ Err.storageFailure rfl⟩

/-- C9: `update` on an absent topic is atomic: it throws `NoMatchingTopic` (from the
shared `getState` lookup, before the map write and the `updated` emit), leaving the
state unchanged and the trace empty — no `updated` event, no persistence write. -/
theorem C9_update_absent_is_atomic (st : St) (topic : String) (patch : Rec)
    (hgate : st.cached = [])
    (habsent : mapHas st.sequences (some topic) = false) :
    updateOp st topic patch
      = ⟨Res.thrown (Err.noMatchingTopic (getStateContext st) topic), st, []⟩ := by
  have hnone := mapGet_eq_none_of_not_has _ _ habsent
  unfold updateOp getState
  simp [hgate, hnone]

/-- C2 counterexample: with a persisted snapshot of N = 0 records (the empty array)
and the in-memory map empty, `init()` emits no `enabled` event at all — `restore`
returns at the `if (!persisted.length) return` check — so "emits the enabled event
exactly once", claimed for every persisted snapshot of N records, fails at N = 0. -/
theorem C2_empty_snapshot_no_enabled :
    (initOp exSt (fun _ => StorageGetResult.value [])).2.count Act.enabled = 0 ∧
    (initOp exSt (fun _ => StorageGetResult.value [])).1 = exSt :=
  ⟨rfl, rfl⟩

/-- C2 (amended): for every persisted snapshot of N ≥ 1 records whose `topic` keys
are pairwise distinct, with the in-memory map empty, `init()` populates the
sequences map with exactly those N records, each keyed by its record's `topic`
field, emits no `created` event while doing so, and emits the `enabled` event
exactly once: the whole trace is the single `enabled` event. -/
theorem C2_restore_populates (st : St) (storage : Storage) (rs : List Rec)
    (hread : storage (getStorageKey st) = .value rs)
    (hne : rs ≠ [])
    (hnodup : (rs.map recTopic).Nodup)
    (hempty : st.sequences = []) :
    (initOp st storage).1.sequences = rs.map (fun r => (recTopic r, r)) ∧
    mapValues (initOp st storage).1.sequences = rs ∧
    (initOp st storage).2 = [Act.enabled] := by
  unfold initOp restoreOp restoreBody
  rw [hread]
  have h1 : rs.isEmpty = false := by simp [List.isEmpty_iff, hne]
  have hfold : rs.foldl (fun m r => mapSet m (recTopic r) r) ([] : Smap)
      = rs.map (fun r => (recTopic r, r)) := by
    have := foldl_mapSet_of_nodup rs ([] : Smap)
      (fun r _ => by simp [mapHas]) hnodup
    simpa using this
  simp only [h1, hempty, Bool.false_eq_true, if_false, List.length_nil, bne_self_eq_false,
    Bool.false_eq_true]
  simp only [hfold]
  refine ⟨trivial, ?_, trivial⟩
  unfold mapValues
  rw [List.map_map]
  exact List.map_id rs

/-- C2 witness: the amended restore behaviour evaluated at a concrete two-record
snapshot. -/
theorem C2_restore_populates_witness :
    ((fun _ => StorageGetResult.value [exSeq, exSeq2]) : Storage) (getStorageKey exSt)
      = .value [exSeq, exSeq2] ∧
    ([exSeq, exSeq2] : List Rec) ≠ [] ∧
    (([exSeq, exSeq2] : List Rec).map recTopic).Nodup ∧
    exSt.sequences = [] ∧
    ((initOp exSt (fun _ => StorageGetResult.value [exSeq, exSeq2])).1.sequences
       = ([exSeq, exSeq2] : List Rec).map (fun r => (recTopic r, r)) ∧
     mapValues (initOp exSt
         (fun _ => StorageGetResult.value [exSeq, exSeq2])).1.sequences
       = [exSeq, exSeq2] ∧
     (initOp exSt (fun _ => StorageGetResult.value [exSeq, exSeq2])).2
       = [Act.enabled]) :=
  ⟨rfl, by decide, by decide, rfl,
    C2_restore_populates exSt _ [exSeq, exSeq2] rfl (by decide) (by decide) rfl⟩

/-- C6: each of the three mutation publishes triggers, synchronously after it,
exactly one persistence write: the trace of a fresh-topic `set` is its `created`
event, then one storage write under the derived key carrying the full current value
list at the moment the write was issued, then `sync`; likewise for a successful
`update` and a successful `delete`, whose writes carry the value list of the map
just mutated. In every case the `sync` event follows the completed write and there
is no other write in the trace. -/
theorem C6_publish_then_one_write (st : St) (topic : String) (s patch : Rec)
    (reason : Reason)
    (hgate : st.cached = []) :
    (mapHas st.sequences (some topic) = false →
      (setOp st topic s).trace
        = [Act.created topic s,
           Act.storageWrite (getStorageKey st) (mapValues st.sequences),
           Act.sync]) ∧
    (∀ s0, mapGet st.sequences (some topic) = some s0 →
      (updateOp st topic patch).trace
        = [Act.updated topic (mergeRec s0 patch) patch,
           Act.storageWrite (getStorageKey st)
             (mapValues (mapSet st.sequences (some topic) (mergeRec s0 patch))),
           Act.sync]) ∧
    (∀ s0, mapGet st.sequences (some topic) = some s0 →
      (deleteOp st topic reason).trace
        = [Act.deleted topic s0 reason,
           Act.storageWrite (getStorageKey st)
             (mapValues (mapDelete st.sequences (some topic))),
           Act.sync]) := by
  refine ⟨?_, ?_, ?_⟩
  · intro habsent
    unfold setOp
    simp [hgate, habsent, persistActs]
  · intro s0 hs0
    unfold updateOp getState
    simp [hgate, hs0, persistActs, getStorageKey, getNestedContext]
  · intro s0 hs0
    have hhas := mapHas_eq_true_of_mapGet _ _ _ hs0
    unfold deleteOp getState
    simp [hgate, hhas, hs0, persistActs, getStorageKey, getNestedContext]

/-- C6 witness: the three traces evaluated on a concrete one-topic store. -/
theorem C6_publish_then_one_write_witness :
    exStT1.cached = [] ∧
    mapHas exStT1.sequences (some "t9") = false ∧
    mapGet exStT1.sequences (some "t1") = some exSeq ∧
    (setOp exStT1 "t9" exSeq2).trace
      = [Act.created "t9" exSeq2,
         Act.storageWrite (getStorageKey exStT1) (mapValues exStT1.sequences),
         Act.sync] ∧
    (updateOp exStT1 "t1" exPatch).trace
      = [Act.updated "t1" (mergeRec exSeq exPatch) exPatch,
         Act.storageWrite (getStorageKey exStT1)
           (mapValues (mapSet exStT1.sequences (some "t1") (mergeRec exSeq exPatch))),
         Act.sync] ∧
    (deleteOp exStT1 "t1" exReason).trace
      = [Act.deleted "t1" exSeq exReason,
         Act.storageWrite (getStorageKey exStT1)
           (mapValues (mapDelete exStT1.sequences (some "t1"))),
         Act.sync] :=
  ⟨rfl, by decide, by decide,
    (C6_publish_then_one_write exStT1 "t9" exSeq2 exPatch exReason rfl).1 (by decide),
    (C6_publish_then_one_write exStT1 "t1" exSeq exPatch exReason rfl).2.1 exSeq
      (by decide),
    (C6_publish_then_one_write exStT1 "t1" exSeq exPatch exReason rfl).2.2 exSeq
      (by decide)⟩

/-- C8: the storage key equals
`protocol ++ "@" ++ version ++ ":" ++ context ++ "//" ++ (last two logger-context
segments joined by ":")`; it is unchanged by every operation of the instance (none
of them touches the client fields or the logger context); every storage write any
operation issues uses exactly this one key (one slot for the whole map — the key
never depends on the topic being mutated); and `init` reads the adapter only at
this key (two adapters agreeing there yield the same result). -/
theorem C8_storage_key_format_and_stability (st : St) :
    getStorageKey st
      = st.client.protocol ++ "@" ++ st.client.version ++ ":" ++ st.client.context
        ++ "//" ++ String.intercalate ":" (getNestedContext st 2) ∧
    (∀ topic s, getStorageKey (setOp st topic s).st = getStorageKey st) ∧
    (∀ topic patch, getStorageKey (updateOp st topic patch).st = getStorageKey st) ∧
    (∀ topic reason, getStorageKey (deleteOp st topic reason).st = getStorageKey st) ∧
    (∀ storage, getStorageKey (initOp st storage).1 = getStorageKey st) ∧
    (∀ topic s, writesUseKey (setOp st topic s).trace (getStorageKey st) = true) ∧
    (∀ topic patch,
      writesUseKey (updateOp st topic patch).trace (getStorageKey st) = true) ∧
    (∀ topic reason,
      writesUseKey (deleteOp st topic reason).trace (getStorageKey st) = true) ∧
    (∀ storage, writesUseKey (initOp st storage).2 (getStorageKey st) = true) ∧
    (∀ storage storage2 : Storage,
      storage (getStorageKey st) = storage2 (getStorageKey st) →
      initOp st storage = initOp st storage2) := by
  refine ⟨rfl, ?_, ?_, ?_, ?_, ?_, ?_, ?_, ?_, ?_⟩
  · intro topic s
    unfold setOp updateOp getState
    split <;> [skip; rfl]
    split
    · split <;> rfl
    · rfl
  · intro topic patch
    unfold updateOp getState
    split <;> [skip; rfl]
    split <;> rfl
  · intro topic reason
    unfold deleteOp getState
    split <;> [skip; rfl]
    split
    · split <;> rfl
    · rfl
  · intro storage
    unfold initOp restoreOp restoreBody
    cases hres : storage (getStorageKey st) with
    | failure => rfl
    | malformed => rfl
    | absent => rfl
    | value rs =>
      by_cases hempty : rs.isEmpty
      · simp [hempty]
      · by_cases hlen : st.sequences.length != 0
        · simp [hempty, hlen]
        · simp [hempty, hlen, getStorageKey, getNestedContext]
  · intro topic s
    unfold setOp updateOp getState
    split <;> [skip; rfl]
    split
    · split <;> simp [writesUseKey, persistActs, getStorageKey, getNestedContext]
    · simp [writesUseKey, persistActs]
  · intro topic patch
    unfold updateOp getState
    split <;> [skip; rfl]
    split <;> simp [writesUseKey, persistActs, getStorageKey, getNestedContext]
  · intro topic reason
    unfold deleteOp getState
    split <;> [skip; rfl]
    split
    · split <;> simp [writesUseKey, persistActs, getStorageKey, getNestedContext]
    · simp [writesUseKey]
  · intro storage
    unfold initOp restoreOp restoreBody
    cases hres : storage (getStorageKey st) with
    | failure => rfl
    | malformed => rfl
    | absent => rfl
    | value rs =>
      by_cases hempty : rs.isEmpty
      · simp [hempty, writesUseKey]
      · by_cases hlen : st.sequences.length != 0
        · simp [hempty, hlen, writesUseKey]
        · simp [hempty, hlen, writesUseKey]
  · intro storage storage2 hagree
    unfold initOp restoreOp restoreBody
    rw [hagree]

/-- C8 witness: the key of the concrete store evaluated against the format, and the
read-locality conjunct discharged with two concretely agreeing adapters. -/
theorem C8_storage_key_format_and_stability_witness :
    getStorageKey exSt = "wc@2:client//client:state" ∧
    getStorageKey (setOp exSt "t1" exSeq).st = getStorageKey exSt ∧
    writesUseKey (setOp exSt "t1" exSeq).trace (getStorageKey exSt) = true ∧
    ((fun _ => StorageGetResult.absent) : Storage) (getStorageKey exSt)
        = ((fun _ => StorageGetResult.absent) : Storage) (getStorageKey exSt) ∧
    initOp exSt (fun _ => StorageGetResult.absent)
      = initOp exSt (fun _ => StorageGetResult.absent) :=
  ⟨by rw [(C8_storage_key_format_and_stability exSt).1]; rfl,
    (C8_storage_key_format_and_stability exSt).2.1 "t1" exSeq,
    (C8_storage_key_format_and_stability exSt).2.2.2.2.2.1 "t1" exSeq,
    rfl,
    (C8_storage_key_format_and_stability exSt).2.2.2.2.2.2.2.2.2
      (fun _ => StorageGetResult.absent) (fun _ => StorageGetResult.absent) rfl⟩

/-- C4: on a gate-clear store, for a topic absent from the sequences map, `get`
and `update` both throw `NoMatchingTopic` (carrying the state context string and
the topic), while `delete` returns normally — a silent no-op leaving the state
unchanged and emitting nothing. -/
theorem C4_absent_topic_errors (st : St) (topic : String) (patch : Rec)
    (reason : Reason)
    (hgate : st.cached = [])
    (habsent : mapHas st.sequences (some topic) = false) :
    (getOp st topic).res
      = Res.thrown (Err.noMatchingTopic (getStateContext st) topic) ∧
    (updateOp st topic patch).res
      = Res.thrown (Err.noMatchingTopic (getStateContext st) topic) ∧
    deleteOp st topic reason = ⟨Res.ok (), st, []⟩ := by
  have hnone := mapGet_eq_none_of_not_has _ _ habsent
  unfold getOp updateOp deleteOp getState
  simp [hgate, hnone, habsent]

/-- C4 witness: the three behaviours evaluated at a concrete store and topic. -/
theorem C4_absent_topic_errors_witness :
    exStT1.cached = [] ∧
    mapHas exStT1.sequences (some "t9") = false ∧
    ((getOp exStT1 "t9").res
       = Res.thrown (Err.noMatchingTopic (getStateContext exStT1) "t9") ∧
     (updateOp exStT1 "t9" exPatch).res
       = Res.thrown (Err.noMatchingTopic (getStateContext exStT1) "t9") ∧
     deleteOp exStT1 "t9" exReason = ⟨Res.ok (), exStT1, []⟩) :=
  ⟨rfl, by decide, C4_absent_topic_errors exStT1 "t9" exPatch exReason rfl (by decide)⟩

/-- C5: on a gate-clear store, `update` on a present topic returns normally, stores
the shallow merge of the existing record with the patch, and emits `updated`
carrying both the merged record and the raw patch; the merge takes the patch's
value for every field the patch names and the existing record's value for every
other field. -/
theorem C5_update_shallow_merge (st : St) (topic : String) (s patch : Rec)
    (hgate : st.cached = [])
    (hpresent : mapGet st.sequences (some topic) = some s) :
    (updateOp st topic patch).res = Res.ok () ∧
    mapGet (updateOp st topic patch).st.sequences (some topic)
      = some (mergeRec s patch) ∧
    (updateOp st topic patch).trace.head?
      = some (Act.updated topic (mergeRec s patch) patch) ∧
    (∀ k, recGet (mergeRec s patch) k = (recGet patch k).or (recGet s k)) := by
  unfold updateOp getState
  simp only [hgate, hpresent, List.isEmpty_nil, if_true]
  refine ⟨trivial, ?_, rfl, fun k => recGet_mergeRec s patch k⟩
  exact mapGet_mapSet_self st.sequences (some topic) (mergeRec s patch)

/-- C5 witness: the merge evaluated concretely — the patch's `expiry` overwrites,
its new `state` field is added, and the record's `topic` field is retained. -/
theorem C5_update_shallow_merge_witness :
    exStT1.cached = [] ∧
    mapGet exStT1.sequences (some "t1") = some exSeq ∧
    ((updateOp exStT1 "t1" exPatch).res = Res.ok () ∧
     mapGet (updateOp exStT1 "t1" exPatch).st.sequences (some "t1")
       = some (mergeRec exSeq exPatch) ∧
     (updateOp exStT1 "t1" exPatch).trace.head?
       = some (Act.updated "t1" (mergeRec exSeq exPatch) exPatch) ∧
     (∀ k, recGet (mergeRec exSeq exPatch) k
       = (recGet exPatch k).or (recGet exSeq k))) :=
  ⟨rfl, by decide, C5_update_shallow_merge exStT1 "t1" exSeq exPatch rfl (by decide)⟩

/-- C10: on a gate-clear store with topic T present, `update(T, patch)` and
`delete(T, reason)` leave the mapping at every other topic T' unchanged: `update`
rewrites only the entry at T and `delete` removes only the entry at T. -/
theorem C10_update_delete_frame (st : St) (topic topic' : String) (patch : Rec)
    (reason : Reason)
    (hgate : st.cached = [])
    (hpresent : mapHas st.sequences (some topic) = true)
    (hne : topic' ≠ topic) :
    mapGet (updateOp st topic patch).st.sequences (some topic')
      = mapGet st.sequences (some topic') ∧
    mapGet (deleteOp st topic reason).st.sequences (some topic')
      = mapGet st.sequences (some topic') := by
  have hksome : (mapGet st.sequences (some topic)).isSome :=
    mapGet_isSome_of_has _ _ hpresent
  obtain ⟨s0, hs0⟩ := Option.isSome_iff_exists.mp hksome
  have hkne : (some topic' : Option String) ≠ some topic :=
    fun h => hne (Option.some.inj h)
  unfold updateOp deleteOp getState
  simp only [hgate, hs0, hpresent, List.isEmpty_nil, if_true]
  exact ⟨mapGet_mapSet_ne _ _ _ _ hkne, mapGet_mapDelete_ne _ _ _ hkne⟩

/-- C10 witness: the frame property evaluated on a concrete two-topic store. -/
theorem C10_update_delete_frame_witness :
    exStT1T2.cached = [] ∧
    mapHas exStT1T2.sequences (some "t1") = true ∧
    ("t2" : String) ≠ "t1" ∧
    (mapGet (updateOp exStT1T2 "t1" exPatch).st.sequences (some "t2")
       = mapGet exStT1T2.sequences (some "t2") ∧
     mapGet (deleteOp exStT1T2 "t1" exReason).st.sequences (some "t2")
       = mapGet exStT1T2.sequences (some "t2")) :=
  ⟨rfl, by decide, by decide,
    C10_update_delete_frame exStT1T2 "t1" "t2" exPatch exReason rfl
      (by decide) (by decide)⟩

/-- C9 witness: the atomic failure evaluated at a concrete store and topic. -/
theorem C9_update_absent_is_atomic_witness :
    exStT1.cached = [] ∧
    mapHas exStT1.sequences (some "t9") = false ∧
    updateOp exStT1 "t9" exPatch
      = ⟨Res.thrown (Err.noMatchingTopic (getStateContext exStT1) "t9"), exStT1, []⟩ :=
  ⟨rfl, by decide, C9_update_absent_is_atomic exStT1 "t9" exPatch rfl (by decide)⟩

end WCState
